import Mathlib

/-!
Verification of the Meraki job-board repository's matching, accounts and
jobs logic against its natural-language specification.

The Python source is shallowly embedded: Django model rows become Lean
structures, `Decimal`/`float` arithmetic is carried out over `ℚ` (numeric
literals such as `0.4` are exact in `ℚ`), Python strings become `List Char`
where substring tests matter, sets of skill ids become `Finset ℕ`, and
fallible operations return `Except`/`Option` or pair their result with the
unchanged store.
-/

set_option autoImplicit false
set_option maxRecDepth 10000

namespace Meraki

/-! ### Python numeric semantics

`matching/services.py` mixes `decimal.Decimal` values (the sub-scores all
return `Decimal(...)`) with `float` weights (`0.4`, `0.3`, `0.2`, `0.1`).
Python's `Decimal` refuses implicit arithmetic with `float`: `Decimal * float`
and `Decimal + float` raise `TypeError`.  `PyNum` tags each rational with the
Python type carrying it so that this behaviour is captured. -/

/-- A Python numeric value: a `decimal.Decimal` or a `float`, both carrying
an exact rational payload. -/
inductive PyNum where
  | dec : ℚ → PyNum
  | flt : ℚ → PyNum
deriving DecidableEq

/-- The Python exceptions relevant to the embedded code. -/
inductive PyErr where
  | typeError
deriving DecidableEq

/-- Python multiplication: `Decimal * Decimal` and `float * float` succeed;
mixing `Decimal` with `float` raises `TypeError`. -/
def pyMul : PyNum → PyNum → Except PyErr PyNum
  | PyNum.dec a, PyNum.dec b => Except.ok (PyNum.dec (a * b))
  | PyNum.flt a, PyNum.flt b => Except.ok (PyNum.flt (a * b))
  | _, _ => Except.error PyErr.typeError

/-- Python addition, with the same mixing rule as `pyMul`. -/
def pyAdd : PyNum → PyNum → Except PyErr PyNum
  | PyNum.dec a, PyNum.dec b => Except.ok (PyNum.dec (a + b))
  | PyNum.flt a, PyNum.flt b => Except.ok (PyNum.flt (a + b))
  | _, _ => Except.error PyErr.typeError

/-- Python multiplication by an `int` literal (allowed for both `Decimal`
and `float`). -/
def pyMulNat (x : PyNum) (n : ℕ) : PyNum :=
  match x with
  | PyNum.dec a => PyNum.dec (a * n)
  | PyNum.flt a => PyNum.flt (a * n)

/-- The rational payload of a Python number. -/
def PyNum.val : PyNum → ℚ
  | PyNum.dec a => a
  | PyNum.flt a => a

/-! ### Python binary64 arithmetic and `Decimal(str(...))`

Two sub-scores funnel a float through `Decimal(str(...))`:
`_calculate_skills_score` computes `len(matching) / len(job_skills)` with
Python's float division, and `_calculate_experience_score` computes
`diff * 0.2` with a float literal.  `str` (= `repr`) of a float is the
shortest decimal string that parses back to the same binary64 value, and
`Decimal` of that string is exact, so the resulting value is generally only
an approximation of the mathematical quotient or product
(`1/3 ↦ Decimal('0.3333333333333333')`, `3*0.2 ↦ Decimal('0.6000000000000001')`).

The functions below implement this over `ℕ`/`ℤ` so the kernel can evaluate
them: binary64 round-to-nearest, ties-to-even (normal range only — the
embedded quantities are ratios in [0, 1] and small-integer multiples of
0.2, far from subnormals and overflow), and the shortest round-tripping
decimal, trying 1 to 17 significant digits and taking at each length the
nearest decimal with ties to even, as CPython's correctly rounded
conversions do.  A float is a pair `(m, E)`: value `m * 2 ^ (E - 52)` with
`2 ^ 52 ≤ m < 2 ^ 53` (or `m = 0`); a decimal is a pair `(c, p)`: value
`c * 10 ^ (-p)`. -/

/-- Fueled digit count of `n` in the given base (`lenAux 2` is the bit
length, `lenAux 10` the decimal length); total via fuel, exact whenever
`n < base ^ fuel`. -/
def lenAux (base : ℕ) : ℕ → ℕ → ℕ
  | 0, _ => 0
  | fuel + 1, n => if n = 0 then 0 else lenAux base fuel (n / base) + 1

/-- Round `N / D` to the nearest integer, ties to even. -/
def divRoundEven (N D : ℕ) : ℕ :=
  let q := N / D
  let r := N % D
  if 2 * r < D then q
  else if D < 2 * r then q + 1
  else if q % 2 = 0 then q else q + 1

/-- Floor of `log_base (num / den)` for positive `num / den`: the digit
lengths give two candidates and a comparison picks the right one. -/
def flrLog (base fuel num den : ℕ) : ℤ :=
  let d : ℤ := (lenAux base fuel num : ℤ) - (lenAux base fuel den : ℤ)
  if 0 ≤ d then (if den * base ^ d.toNat ≤ num then d else d - 1)
  else (if den ≤ num * base ^ (-d).toNat then d else d - 1)

/-- The binary64 double nearest to `num / den` (round to nearest, ties to
even), as a mantissa/exponent pair. -/
def floatOfRat (num den : ℕ) : ℕ × ℤ :=
  if num = 0 then (0, 0)
  else
    let E := flrLog 2 400 num den
    let k : ℤ := 52 - E
    let m := divRoundEven (num * 2 ^ k.toNat) (den * 2 ^ (-k).toNat)
    if m = 2 ^ 53 then (2 ^ 52, E + 1) else (m, E)

/-- Correctly rounded binary64 multiplication (IEEE 754: the exact product
is rounded once). -/
def mulFloat (f g : ℕ × ℤ) : ℕ × ℤ :=
  let e : ℤ := f.2 + g.2 - 104
  floatOfRat (f.1 * g.1 * 2 ^ e.toNat) (2 ^ (-e).toNat)

/-- The exact rational value of a float. -/
def floatVal (f : ℕ × ℤ) : ℚ := (f.1 : ℚ) * 2 ^ (f.2 - 52)

/-- The value of a float as a fraction of naturals. -/
def floatFrac (f : ℕ × ℤ) : ℕ × ℕ :=
  (f.1 * 2 ^ (f.2 - 52).toNat, 2 ^ (52 - f.2).toNat)

/-- The nearest decimal to `f` with `nd` significant digits (ties to
even). -/
def reprCand (f : ℕ × ℤ) (nd : ℕ) : ℕ × ℤ :=
  let nf := floatFrac f
  let p : ℤ := (nd : ℤ) - 1 - flrLog 10 200 nf.1 nf.2
  (divRoundEven (nf.1 * 10 ^ p.toNat) (nf.2 * 10 ^ (-p).toNat), p)

/-- Parse a decimal back to the nearest binary64 double (what `float(s)`
does to the rendered string). -/
def floatOfDec (d : ℕ × ℤ) : ℕ × ℤ :=
  floatOfRat (d.1 * 10 ^ (-d.2).toNat) (10 ^ d.2.toNat)

/-- Search for the shortest significant-digit count whose nearest decimal
round-trips to `f`; when the fuel ends the final candidate is returned
unconditionally (17 digits always round-trip for binary64). -/
def reprSearchAux (f : ℕ × ℤ) : ℕ → ℕ → ℕ × ℤ
  | 0, nd => reprCand f nd
  | fuel + 1, nd =>
    let d := reprCand f nd
    if floatOfDec d = f then d else reprSearchAux f fuel (nd + 1)

/-- Python's `repr`/`str` of a positive float: the shortest round-tripping
decimal, as a digits/scale pair. -/
def reprFloat (f : ℕ × ℤ) : ℕ × ℤ := reprSearchAux f 16 1

/-- The exact rational value of a decimal pair — the value
`Decimal(str(x))` carries. -/
def decVal (d : ℕ × ℤ) : ℚ := (d.1 : ℚ) * 10 ^ (-d.2)

/-- Python's `Decimal(str(a / b))` for naturals `a`, `b` with `b ≥ 1`:
float division, `str`, `Decimal`. -/
def ratioDec (a b : ℕ) : ℚ :=
  if a = 0 then 0 else decVal (reprFloat (floatOfRat a b))

/-- Python's `Decimal(str(n * 0.2))` for a positive int `n`: the float
literal `0.2` is the double nearest `1/5`, the product is correctly
rounded, and the result is rendered and re-read exactly. -/
def timesPointTwoDec (n : ℕ) : ℚ :=
  decVal (reprFloat (mulFloat (floatOfRat n 1) (floatOfRat 1 5)))

/-! ### Data model (the fields used by `MatchingService`)

`jobs/models.py` `JobPost`: `skills_required` is a many-to-many set of
`Skill` rows (embedded as their ids), `experience_level` is a `CharField`
with choices `entry`/`mid`/`senior`, `location` is a `CharField`.
`applicants/models.py` `ApplicantProfile`: `skills` is a set of skill ids,
`years_experience` is an `IntegerField` (default 0), and the comparison
location is `applicant.user.profile.location`, a blankable `CharField`. -/

/-- The fields of a `JobPost` row read by the matching service. -/
structure JobPost where
  skills_required : Finset ℕ
  experience_level : String
  location : List Char

/-- The fields of an `ApplicantProfile` row (plus the related
`user.profile.location`) read by the matching service. -/
structure ApplicantProfile where
  skills : Finset ℕ
  years_experience : ℤ
  location : List Char

/-! ### `MatchingService` sub-scores (`matching/services.py`)

Each private `_calculate_*_score` returns a `Decimal`; the functions below
give the exact rational payloads.  Division of Python ints is embedded as
exact division in `ℚ`. -/

namespace MatchingService

/-- `_calculate_skills_score`: `Decimal('0.5')` if the job declares no
required skills, `Decimal('0.0')` if the applicant has none, else
`Decimal(str(match_ratio))` where `match_ratio` is the float quotient
`|required ∩ applicant| / |required|`. -/
def calculate_skills_score (job : JobPost) (a : ApplicantProfile) : ℚ :=
  if job.skills_required = ∅ then 0.5
  else if a.skills = ∅ then 0.0
  else ratioDec ((job.skills_required ∩ a.skills).card) (job.skills_required.card)

/-- The `experience_mapping` dict of `_calculate_experience_score`:
`entry ↦ (0, 2)`, `mid ↦ (2, 5)`, `senior ↦ (5, 100)`, with `.get` default
`(0, 100)` for any other level string. -/
def experienceMapping (level : String) : ℤ × ℤ :=
  if level = "entry" then (0, 2)
  else if level = "mid" then (2, 5)
  else if level = "senior" then (5, 100)
  else (0, 100)

/-- `_calculate_experience_score`: `Decimal('1.0')` inside the required
range, `max(Decimal('0.0'), Decimal('1.0') - Decimal(str(diff * 0.2)))`
below it (`diff * 0.2` is a float product; the `Decimal` constants and the
subtraction are exact), and a flat `Decimal('0.9')` above it. -/
def calculate_experience_score (job : JobPost) (a : ApplicantProfile) : ℚ :=
  let r := experienceMapping job.experience_level
  if r.1 ≤ a.years_experience ∧ a.years_experience ≤ r.2 then 1.0
  else if a.years_experience < r.1 then
    max 0.0 (1.0 - timesPointTwoDec (r.1 - a.years_experience).toNat)
  else 0.9

/-- Python's `str.lower()` on one character, for code points below `0x100`
(ASCII and the Latin-1 supplement): `A`–`Z` and `À`–`Þ` (except the
multiplication sign `×` at `0xD7`) move down by `0x20`; every other code
point below `0x100` is fixed (`ß`, `µ` lowercase to themselves).  Code
points at `0x100` and above, whose Unicode case mappings are outside this
model, are left unchanged here. -/
def pyLowerChar (c : Char) : Char :=
  if 0x41 ≤ c.toNat ∧ c.toNat ≤ 0x5A then Char.ofNat (c.toNat + 0x20)
  else if (0xC0 ≤ c.toNat ∧ c.toNat ≤ 0xD6) ∨ (0xD8 ≤ c.toNat ∧ c.toNat ≤ 0xDE) then
    Char.ofNat (c.toNat + 0x20)
  else c

/-- Lowercasing of a Python string, character by character. -/
def lowerChars (s : List Char) : List Char := s.map pyLowerChar

/-- Whether the first list is an initial run of the second. -/
def leadSeg : List Char → List Char → Bool
  | [], _ => true
  | _ :: _, [] => false
  | a :: as, b :: bs => a == b && leadSeg as bs

/-- Python's `sub in hay` substring test on character lists. -/
def occursIn (sub : List Char) : List Char → Bool
  | [] => leadSeg sub []
  | c :: t => leadSeg sub (c :: t) || occursIn sub t

/-- `_calculate_location_score`: `0.5` when either location is falsy (empty),
else `1.0` when one lowercased location contains the other, else `0.3`. -/
def calculate_location_score (job : JobPost) (a : ApplicantProfile) : ℚ :=
  if job.location = [] ∨ a.location = [] then 0.5
  else
    let jl := lowerChars job.location
    let al := lowerChars a.location
    if occursIn jl al || occursIn al jl then 1.0 else 0.3

/-- `_calculate_education_score`: the constant `0.7`. -/
def calculate_education_score (_ : JobPost) (_ : ApplicantProfile) : ℚ := 0.7

end MatchingService

/-! ### The `MatchScore` row and its `save` override (`matching/models.py`) -/

/-- The score-carrying fields of a `MatchScore` row. -/
structure MatchScoreRow where
  skills_score : ℚ
  experience_score : ℚ
  location_score : ℚ
  education_score : ℚ
  total_score : ℚ
  is_high_match : Bool
  is_recommended : Bool
deriving DecidableEq

/-- `MatchScore.save`: recomputes the derived flags `is_high_match`
(`total_score >= 80`) and `is_recommended` (`total_score >= 70`) before the
row is persisted. -/
def MatchScoreRow.save (r : MatchScoreRow) : MatchScoreRow :=
  { r with
    is_high_match := decide (80 ≤ r.total_score)
    is_recommended := decide (70 ≤ r.total_score) }

namespace MatchingService

/-- The `weights` dict of `calculate_match_score`; the literals `0.4`, `0.3`,
`0.2`, `0.1` are Python floats. -/
def weightSkills : PyNum := PyNum.flt 0.4

/-- Float weight for the experience component. -/
def weightExperience : PyNum := PyNum.flt 0.3

/-- Float weight for the location component. -/
def weightLocation : PyNum := PyNum.flt 0.2

/-- Float weight for the education component. -/
def weightEducation : PyNum := PyNum.flt 0.1

/-- `calculate_match_score`, with Python's numeric-type semantics.  Each
sub-score is a `Decimal`; `total_score` multiplies them by the float weights
left to right, adds the products, scales by `100`, and the row is then built
and saved.  The first multiplication `skills_score * weights['skills']` is
`Decimal * float`. -/
def calculate_match_score (job : JobPost) (a : ApplicantProfile) :
    Except PyErr MatchScoreRow := do
  let skills := PyNum.dec (calculate_skills_score job a)
  let experience := PyNum.dec (calculate_experience_score job a)
  let location := PyNum.dec (calculate_location_score job a)
  let education := PyNum.dec (calculate_education_score job a)
  let t1 ← pyMul skills weightSkills
  let t2 ← pyMul experience weightExperience
  let t3 ← pyMul location weightLocation
  let t4 ← pyMul education weightEducation
  let s1 ← pyAdd t1 t2
  let s2 ← pyAdd s1 t3
  let s3 ← pyAdd s2 t4
  let total := pyMulNat s3 100
  let row : MatchScoreRow :=
    { skills_score := (calculate_skills_score job a) * 100
      experience_score := (calculate_experience_score job a) * 100
      location_score := (calculate_location_score job a) * 100
      education_score := (calculate_education_score job a) * 100
      total_score := total.val
      is_high_match := false
      is_recommended := false }
  pure row.save

end MatchingService

/-! ### `Application` rows and the `(job_post, applicant)` uniqueness
constraint (`jobs/models.py`, `Meta.unique_together`) -/

/-- The fields of an `Application` row that the uniqueness test touches.
`job_post` and `applicant` are the ids of the related rows. -/
structure ApplicationRow where
  job_post : ℕ
  applicant : ℕ
  status : String
  cover_letter : String
deriving DecidableEq

/-- Database errors surfaced by the ORM. -/
inductive DbError where
  | uniqueViolation
deriving DecidableEq

/-- `Application.objects.create` against the `unique_together
['job_post', 'applicant']` constraint: an insert whose pair is already
present raises and leaves the table unchanged; otherwise the row is added. -/
def create_application (store : List ApplicationRow) (row : ApplicationRow) :
    Option DbError × List ApplicationRow :=
  if store.any (fun r => r.job_post == row.job_post && r.applicant == row.applicant)
  then (some DbError.uniqueViolation, store)
  else (none, row :: store)

/-! ### Username generation on signup
(`accounts/forms.py`, `UserRegistrationForm.save`)

The form takes the email's local part as the base username and, while the
candidate is taken, tries `base_1`, `base_2`, … in increasing order. -/

/-- Decimal rendering of a counter, as Python's `str(int)` produces it
(most significant digit first). -/
def natChars (n : ℕ) : List Char :=
  (Nat.digits 10 n).reverse.map (fun d => Char.ofNat (48 + d))

/-- The candidate username tried at loop iteration `k`: the plain base for
`k = 0`, then `base_k` (an underscore and the decimal counter). -/
def candAt (base : List Char) : ℕ → List Char
  | 0 => base
  | k + 1 => base ++ ('_' :: natChars (k + 1))

/-- The `while User.objects.filter(username=username).exists()` loop: try the
candidate at index `m`, move to `m + 1` while it is taken.  `fuel` bounds the
search so the function is total; `generate_username` supplies enough fuel. -/
def searchFree (taken : List (List Char)) (base : List Char) :
    ℕ → ℕ → Option (List Char)
  | 0, _ => none
  | fuel + 1, m =>
    if candAt base m ∈ taken then searchFree taken base fuel (m + 1)
    else some (candAt base m)

/-- Python's `email.split('@')[0]`: the characters before the first `@`. -/
def splitLocal (email : List Char) : List Char :=
  email.takeWhile (fun c => c != '@')

/-- The username-generation part of `UserRegistrationForm.save`, over the
list of already-taken usernames. -/
def generate_username (taken : List (List Char)) (email : List Char) :
    Option (List Char) :=
  searchFree taken (splitLocal email) (taken.length + 1) 0

/-! ### Post-save signal handlers for `User` (`accounts/signals.py`)

On `post_save` with `created=True` Django runs, in registration order:

1. `create_user_related_profiles` — `Profile.objects.get_or_create(user,
   defaults={'phone': '', 'location': ''})`, then a call
   `create_user_profile(instance)`.  At module scope that name no longer
   refers to `accounts.utils.create_user_profile` (imported at the top of
   `signals.py`): the receiver defined later in the same module rebinds it,
   so the one-argument call raises `TypeError` and is swallowed by the
   surrounding `except`.  Net effect: ensure the base `Profile` only.
2. `send_welcome_email_on_activation` — skipped on creation
   (`not kwargs.get('created', False)` is false); no state change.
3. `create_user_profile` (the receiver at the bottom of `signals.py`) —
   ensures the base `Profile`, then `create_specific_profile` ensures an
   `ApplicantProfile` (defaults `first_name`/`last_name`) for
   `user_type == 'applicant'` or a `Company` (name `"first last"`) for
   `user_type == 'company'`.
4. `save_user_profile` — re-saves the existing profile; no structural
   change. -/

/-- The fields of an `accounts.models.Profile` row created by the signal. -/
structure ProfileRow where
  phone : String
  location : String
deriving DecidableEq

/-- The default fields of an `ApplicantProfile` row created by the signal. -/
structure ApplicantProfileRow where
  first_name : String
  last_name : String
deriving DecidableEq

/-- The default fields of a `Company` row created by the signal. -/
structure CompanyRow where
  name : String
deriving DecidableEq

/-- The fields of the saved `User` instance read by the handlers. -/
structure UserRec where
  user_type : String
  first_name : String
  last_name : String
  email : String
deriving DecidableEq

/-- The related rows of one user, as the signal handlers see them. -/
structure AccountsState where
  profile : Option ProfileRow
  applicant_profile : Option ApplicantProfileRow
  company : Option CompanyRow
deriving DecidableEq

namespace Signals

/-- `Profile.objects.get_or_create(user, defaults={'phone': '',
'location': ''})`. -/
def ensureProfile (s : AccountsState) : AccountsState :=
  match s.profile with
  | some _ => s
  | none => { s with profile := some { phone := "", location := "" } }

/-- Handler 1, `create_user_related_profiles`: ensures the base profile;
its follow-up call hits the rebound receiver name with the wrong arity and
the raised `TypeError` is caught, so nothing else happens. -/
def create_user_related_profiles (_ : UserRec) (s : AccountsState) :
    AccountsState :=
  ensureProfile s

/-- `create_specific_profile` from `signals.py`: `get_or_create` of the
type-specific row. -/
def create_specific_profile (u : UserRec) (s : AccountsState) : AccountsState :=
  if u.user_type = "applicant" then
    match s.applicant_profile with
    | some _ => s
    | none =>
      { s with applicant_profile := some ⟨u.first_name, u.last_name⟩ }
  else if u.user_type = "company" then
    match s.company with
    | some _ => s
    | none =>
      { s with company := some ⟨u.first_name ++ " " ++ u.last_name⟩ }
  else s

/-- Handler 3, the `create_user_profile` receiver defined in `signals.py`:
ensures the base profile and then the type-specific row. -/
def create_user_profile (u : UserRec) (s : AccountsState) : AccountsState :=
  create_specific_profile u (ensureProfile s)

/-- Handler 4, `save_user_profile`: re-saves the profile, structurally a
no-op on the state. -/
def save_user_profile (_ : UserRec) (s : AccountsState) : AccountsState := s

/-- The full `post_save` dispatch for a newly created user (handler 2 is a
no-op on creation). -/
def postSaveCreated (u : UserRec) (s : AccountsState) : AccountsState :=
  save_user_profile u (create_user_profile u (create_user_related_profiles u s))

end Signals

/-! ### `ApplicantRecommendationsView.get_queryset` (`matching/views.py`)

The view wraps the service call in `try/except`; on any exception it logs
and returns `[]`, otherwise it returns the service result unchanged.  (In
the repository the called method `MatchingService.get_job_recommendations`
does not exist, so the attribute lookup raises `AttributeError` on every
request and the except branch is always the one taken.) -/

/-- Exceptions a service call can raise. -/
inductive ServiceErr where
  | attributeError
  | runtime : String → ServiceErr
deriving DecidableEq

namespace ApplicantRecommendationsView

/-- The `try/except` body of `get_queryset`, parameterised by the outcome of
the `MatchingService.get_job_recommendations(...)` call. -/
def get_queryset (call : Except ServiceErr (List MatchScoreRow)) :
    List MatchScoreRow :=
  match call with
  | Except.error _ => []
  | Except.ok ms => ms

/-- Modelled from the source: `matching/services.py` defines no
`get_job_recommendations` on `MatchingService`, so the call the view makes
raises `AttributeError` before any recommendation logic can run. -/
def get_job_recommendations : Except ServiceErr (List MatchScoreRow) :=
  Except.error ServiceErr.attributeError

end ApplicantRecommendationsView

/-! ### `MatchingPreferences` and its weight-sum validation
(`matching/models.py`) -/

/-- The five weight fields of a `MatchingPreferences` row
(`PositiveIntegerField`s). -/
structure MatchingPreferences where
  skills_weight : ℕ
  experience_weight : ℕ
  location_weight : ℕ
  education_weight : ℕ
  salary_weight : ℕ
deriving DecidableEq

/-- A `ValidationError` carrying the offending weight sum. -/
inductive PrefError where
  | validationError : ℕ → PrefError
deriving DecidableEq

/-- The sum computed in `MatchingPreferences.clean`. -/
def MatchingPreferences.total_weight (p : MatchingPreferences) : ℕ :=
  p.skills_weight + p.experience_weight + p.location_weight +
    p.education_weight + p.salary_weight

/-- `MatchingPreferences.clean`: raises a `ValidationError` unless the five
weights sum to `100`. -/
def MatchingPreferences.clean (p : MatchingPreferences) : Except PrefError Unit :=
  if p.total_weight ≠ 100 then Except.error (PrefError.validationError p.total_weight)
  else Except.ok ()

/-- `MatchingPreferences.save`: runs `clean` first, so an invalid weight sum
raises before anything is written and the stored row is unchanged; on
success the row is persisted. -/
def MatchingPreferences.savePrefs (p : MatchingPreferences)
    (stored : Option MatchingPreferences) :
    Option PrefError × Option MatchingPreferences :=
  match p.clean with
  | Except.error e => (some e, stored)
  | Except.ok _ => (none, some p)

/-- The declared field defaults `40/30/20/10/0`. -/
def defaultMatchingPreferences : MatchingPreferences :=
  { skills_weight := 40
    experience_weight := 30
    location_weight := 20
    education_weight := 10
    salary_weight := 0 }

/-! ### Concrete rows used by witnesses and counterexamples -/

/-- An entry-level job with no skills and no location. -/
def jobEntryC2 : JobPost :=
  { skills_required := ∅, experience_level := "entry", location := [] }

/-- A mid-level job with no skills and no location. -/
def jobMidC2 : JobPost :=
  { skills_required := ∅, experience_level := "mid", location := [] }

/-- An applicant with `n` years of experience and nothing else. -/
def applicantExpC2 (n : ℤ) : ApplicantProfile :=
  { skills := ∅, years_experience := n, location := [] }

/-- A senior-level job with no skills and no location. -/
def jobSeniorC2 : JobPost :=
  { skills_required := ∅, experience_level := "senior", location := [] }

/-- A job requiring the two skills `1` and `2` (the repository test's
Python and Django rows). -/
def jobC3 : JobPost :=
  { skills_required := {1, 2}, experience_level := "mid", location := [] }

/-- A job requiring the three skills `1`, `2` and `3`. -/
def jobC3three : JobPost :=
  { skills_required := {1, 2, 3}, experience_level := "mid", location := [] }

/-- An applicant holding only skill `1`. -/
def applicantC3 : ApplicantProfile :=
  { skills := {1}, years_experience := 3, location := [] }

/-- A job whose location field is the (falsy) empty string. -/
def jobC4empty : JobPost :=
  { skills_required := ∅, experience_level := "entry", location := [] }

/-- An applicant whose profile location is `"bogota"`. -/
def applicantC4 : ApplicantProfile :=
  { skills := ∅, years_experience := 0, location := ['b', 'o', 'g', 'o', 't', 'a'] }

/-- A job located in the upper-case, accented `"BOGOTÁ"`. -/
def jobC4accent : JobPost :=
  { skills_required := ∅, experience_level := "entry",
    location := ['B', 'O', 'G', 'O', 'T', 'Á'] }

/-- An applicant whose profile location is the lower-case `"bogotá"`. -/
def applicantC4accent : ApplicantProfile :=
  { skills := ∅, years_experience := 0,
    location := ['b', 'o', 'g', 'o', 't', 'á'] }

/-- A concrete application row. -/
def applicationC5 : ApplicationRow :=
  { job_post := 1, applicant := 2, status := "applied", cover_letter := "" }

/-- A concrete applicant-type user. -/
def userC7 : UserRec :=
  { user_type := "applicant", first_name := "Ana", last_name := "Diaz",
    email := "ana@test.com" }

/-- The state of a user with no related rows yet. -/
def emptyAccountsState : AccountsState :=
  { profile := none, applicant_profile := none, company := none }

/-- A match-score row about to be saved with stale flags. -/
def matchRowC9 : MatchScoreRow :=
  { skills_score := 50, experience_score := 100, location_score := 100,
    education_score := 70, total_score := 85,
    is_high_match := false, is_recommended := false }

/-- Preferences whose weights sum to 110. -/
def badPrefsC10 : MatchingPreferences :=
  { skills_weight := 50, experience_weight := 30, location_weight := 20,
    education_weight := 10, salary_weight := 0 }

/-! ## Theorems -/

/-- Fueled digit counts are monotone in the argument. -/
theorem lenAux_mono (base : ℕ) :
    ∀ fuel m n, m ≤ n → lenAux base fuel m ≤ lenAux base fuel n := by
  intro fuel
  induction fuel with
  | zero =>
    intro m n _
    simp [lenAux]
  | succ f ih =>
    intro m n hmn
    by_cases hm : m = 0
    · simp [lenAux, hm]
    · have hn : n ≠ 0 := by omega
      simp only [lenAux, if_neg hm, if_neg hn]
      have := ih (m / base) (n / base) (Nat.div_le_div_right hmn)
      omega

/-- The two-candidate floor logarithm is at most zero when `num ≤ den`. -/
theorem flrLog_nonpos (base fuel num den : ℕ) (h : num ≤ den) :
    flrLog base fuel num den ≤ 0 := by
  have hlen := lenAux_mono base fuel num den h
  simp only [flrLog]
  split_ifs <;> omega

/-- The floor logarithm is negative when `num < den`. -/
theorem flrLog_neg (base fuel num den : ℕ) (h : num < den) :
    flrLog base fuel num den ≤ -1 := by
  have hlen := lenAux_mono base fuel num den (le_of_lt h)
  simp only [flrLog]
  split_ifs with h1 h2
  · exfalso
    have hd0 : (lenAux base fuel num : ℤ) - lenAux base fuel den = 0 := by omega
    rw [hd0] at h2
    simp at h2
    omega
  · omega
  · omega
  · omega

/-- Round-to-even division respects integer upper bounds. -/
theorem divRoundEven_le (N D t : ℕ) (hD : 0 < D) (h : N ≤ t * D) :
    divRoundEven N D ≤ t := by
  have hq : N / D ≤ t := by
    have h1 : N / D ≤ t * D / D := Nat.div_le_div_right h
    rwa [Nat.mul_div_cancel _ hD] at h1
  have hq1 : 0 < N % D → N / D < t := by
    intro hr
    rcases Nat.lt_or_ge (N / D) t with hlt | hge
    · exact hlt
    · exfalso
      have hqt : N / D = t := le_antisymm hq hge
      have hgt : t * D < N := by
        calc t * D = D * (N / D) := by rw [hqt, Nat.mul_comm]
        _ < D * (N / D) + N % D := Nat.lt_add_of_pos_right hr
        _ = N := Nat.div_add_mod N D
      exact absurd (lt_of_le_of_lt h hgt) (lt_irrefl N)
  simp only [divRoundEven]
  split_ifs with h1 h2 h3
  · exact hq
  · exact hq1 (by omega)
  · exact hq
  · exact hq1 (by omega)

/-- The value of any float pair is nonnegative. -/
theorem floatVal_nonneg (f : ℕ × ℤ) : 0 ≤ floatVal f := by
  unfold floatVal
  positivity

/-- Rounding a ratio of naturals with `1 ≤ num ≤ den` gives a double of at
most 1 (0 and 1 are exactly representable, and rounding to nearest cannot
jump past them). -/
theorem floatOfRat_le_one (num den : ℕ) (h1 : 1 ≤ num) (h : num ≤ den) :
    floatVal (floatOfRat num den) ≤ 1 := by
  rcases eq_or_lt_of_le h with heq | hlt
  · subst heq
    have hE : flrLog 2 400 num num = 0 := by
      simp [flrLog]
    have hdiv : divRoundEven (num * 2 ^ 52) (num * 1) = 2 ^ 52 := by
      simp only [divRoundEven, Nat.mul_one]
      rw [Nat.mul_div_cancel_left _ (by omega : 0 < num), Nat.mul_mod_right]
      rw [if_pos (by omega : 2 * 0 < num)]
    have hfr : floatOfRat num num = (2 ^ 52, 0) := by
      unfold floatOfRat
      rw [if_neg (by omega), hE]
      show (if divRoundEven (num * 2 ^ 52) (num * 1) = 2 ^ 53
          then ((2 : ℕ) ^ 52, (0 : ℤ) + 1)
          else (divRoundEven (num * 2 ^ 52) (num * 1), 0)) = (2 ^ 52, 0)
      rw [hdiv, if_neg (by norm_num)]
    rw [hfr]
    unfold floatVal
    norm_num
  · have hE := flrLog_neg 2 400 num den hlt
    unfold floatOfRat
    rw [if_neg (by omega)]
    simp only []
    have hnk : (-(52 - flrLog 2 400 num den)).toNat = 0 :=
      Int.toNat_of_nonpos (by omega)
    have hm : divRoundEven (num * 2 ^ (52 - flrLog 2 400 num den).toNat)
        (den * 2 ^ (-(52 - flrLog 2 400 num den)).toNat)
        ≤ 2 ^ (52 - flrLog 2 400 num den).toNat := by
      apply divRoundEven_le
      · rw [hnk]
        simpa using Nat.lt_of_lt_of_le (by omega) h
      · rw [hnk, pow_zero, Nat.mul_one]
        calc num * 2 ^ (52 - flrLog 2 400 num den).toNat
            ≤ den * 2 ^ (52 - flrLog 2 400 num den).toNat :=
              Nat.mul_le_mul_right _ h
        _ = 2 ^ (52 - flrLog 2 400 num den).toNat * den := Nat.mul_comm _ _
    have hcast : ((2 : ℚ) ^ (52 - flrLog 2 400 num den).toNat : ℚ)
        = (2 : ℚ) ^ (52 - flrLog 2 400 num den) := by
      rw [← zpow_natCast (2 : ℚ), Int.toNat_of_nonneg (by omega)]
    split_ifs with hov
    · unfold floatVal
      push_cast
      have hnum : (4503599627370496 : ℚ) = 2 ^ (52 : ℕ) := by norm_num
      rw [hnum, ← zpow_natCast (2 : ℚ) 52, ← zpow_add₀ (by norm_num : (2:ℚ) ≠ 0)]
      have h52 : ((52 : ℕ) : ℤ) + (flrLog 2 400 num den + 1 - 52)
          = flrLog 2 400 num den + 1 := by
        push_cast
        ring
      rw [h52]
      calc (2 : ℚ) ^ (flrLog 2 400 num den + 1) ≤ 2 ^ (0 : ℤ) := by
            apply zpow_le_zpow_right₀ (by norm_num) (by omega)
      _ = 1 := zpow_zero 2
    · unfold floatVal
      calc ((divRoundEven (num * 2 ^ (52 - flrLog 2 400 num den).toNat)
              (den * 2 ^ (-(52 - flrLog 2 400 num den)).toNat) : ℕ) : ℚ)
            * 2 ^ (flrLog 2 400 num den - 52)
          ≤ ((2 ^ (52 - flrLog 2 400 num den).toNat : ℕ) : ℚ)
            * 2 ^ (flrLog 2 400 num den - 52) := by
            apply mul_le_mul_of_nonneg_right _ (by positivity)
            exact_mod_cast hm
      _ = 1 := by
            push_cast
            rw [hcast, ← zpow_add₀ (by norm_num : (2:ℚ) ≠ 0)]
            norm_num

/-- `floatFrac` represents the same value as `floatVal`. -/
theorem floatFrac_cast (f : ℕ × ℤ) :
    ((floatFrac f).1 : ℚ) = floatVal f * ((floatFrac f).2 : ℚ) := by
  unfold floatFrac floatVal
  rcases le_or_lt 52 f.2 with h | h
  · have h2 : (52 - f.2).toNat = 0 := Int.toNat_of_nonpos (by omega)
    have h1 : ((f.2 - 52).toNat : ℤ) = f.2 - 52 := Int.toNat_of_nonneg (by omega)
    rw [h2]
    push_cast
    rw [← zpow_natCast (2 : ℚ) ((f.2 - 52).toNat), h1]
    ring
  · have h2 : ((52 - f.2).toNat : ℤ) = 52 - f.2 := Int.toNat_of_nonneg (by omega)
    have h1 : (f.2 - 52).toNat = 0 := Int.toNat_of_nonpos (by omega)
    rw [h1]
    push_cast
    rw [← zpow_natCast (2 : ℚ) ((52 - f.2).toNat), h2, mul_assoc,
      ← zpow_add₀ (by norm_num : (2:ℚ) ≠ 0)]
    norm_num

/-- A float of value at most 1 has its fraction numerator at most its
denominator. -/
theorem floatFrac_le (f : ℕ × ℤ) (h : floatVal f ≤ 1) :
    (floatFrac f).1 ≤ (floatFrac f).2 := by
  have hc := floatFrac_cast f
  have hden : (0 : ℚ) < ((floatFrac f).2 : ℚ) := by
    unfold floatFrac
    push_cast
    positivity
  have hq : ((floatFrac f).1 : ℚ) ≤ ((floatFrac f).2 : ℚ) := by
    rw [hc]
    calc floatVal f * ((floatFrac f).2 : ℚ)
        ≤ 1 * ((floatFrac f).2 : ℚ) := mul_le_mul_of_nonneg_right h (le_of_lt hden)
    _ = _ := one_mul _
  exact_mod_cast hq

/-- Every decimal candidate produced for a float of value at most 1 is at
most 1 (the candidate is the nearest decimal on a grid containing 1). -/
theorem reprCand_le_one (f : ℕ × ℤ) (nd : ℕ) (hnd : 1 ≤ nd)
    (h : floatVal f ≤ 1) :
    decVal (reprCand f nd) ≤ 1 := by
  have hfr := floatFrac_le f h
  have hden : 0 < (floatFrac f).2 := by
    unfold floatFrac
    positivity
  have hlog := flrLog_nonpos 10 200 (floatFrac f).1 (floatFrac f).2 hfr
  simp only [reprCand]
  have hp : (0 : ℤ) ≤ (nd : ℤ) - 1 - flrLog 10 200 (floatFrac f).1 (floatFrac f).2 := by
    omega
  have hnp : (-((nd : ℤ) - 1 - flrLog 10 200 (floatFrac f).1 (floatFrac f).2)).toNat = 0 :=
    Int.toNat_of_nonpos (by omega)
  have hc : divRoundEven
      ((floatFrac f).1 * 10 ^ ((nd : ℤ) - 1 - flrLog 10 200 (floatFrac f).1 (floatFrac f).2).toNat)
      ((floatFrac f).2 * 10 ^ (-((nd : ℤ) - 1 - flrLog 10 200 (floatFrac f).1 (floatFrac f).2)).toNat)
      ≤ 10 ^ ((nd : ℤ) - 1 - flrLog 10 200 (floatFrac f).1 (floatFrac f).2).toNat := by
    apply divRoundEven_le
    · rw [hnp, pow_zero, Nat.mul_one]
      exact hden
    · rw [hnp, pow_zero, Nat.mul_one]
      calc (floatFrac f).1 * 10 ^ ((nd : ℤ) - 1 - flrLog 10 200 (floatFrac f).1 (floatFrac f).2).toNat
          ≤ (floatFrac f).2 * 10 ^ ((nd : ℤ) - 1 - flrLog 10 200 (floatFrac f).1 (floatFrac f).2).toNat :=
            Nat.mul_le_mul_right _ hfr
      _ = 10 ^ ((nd : ℤ) - 1 - flrLog 10 200 (floatFrac f).1 (floatFrac f).2).toNat * (floatFrac f).2 :=
            Nat.mul_comm _ _
  unfold decVal
  calc ((divRoundEven
          ((floatFrac f).1 * 10 ^ ((nd : ℤ) - 1 - flrLog 10 200 (floatFrac f).1 (floatFrac f).2).toNat)
          ((floatFrac f).2 * 10 ^ (-((nd : ℤ) - 1 - flrLog 10 200 (floatFrac f).1 (floatFrac f).2)).toNat) : ℕ) : ℚ)
        * 10 ^ (-((nd : ℤ) - 1 - flrLog 10 200 (floatFrac f).1 (floatFrac f).2))
      ≤ ((10 ^ ((nd : ℤ) - 1 - flrLog 10 200 (floatFrac f).1 (floatFrac f).2).toNat : ℕ) : ℚ)
        * 10 ^ (-((nd : ℤ) - 1 - flrLog 10 200 (floatFrac f).1 (floatFrac f).2)) := by
        apply mul_le_mul_of_nonneg_right _ (by positivity)
        exact_mod_cast hc
  _ = 1 := by
        push_cast
        rw [← zpow_natCast (10 : ℚ), Int.toNat_of_nonneg hp,
          ← zpow_add₀ (by norm_num : (10:ℚ) ≠ 0)]
        norm_num

/-- The repr search always returns one of the digit-count candidates. -/
theorem reprSearchAux_cand (f : ℕ × ℤ) :
    ∀ fuel nd0, ∃ nd, nd0 ≤ nd ∧ reprSearchAux f fuel nd0 = reprCand f nd := by
  intro fuel
  induction fuel with
  | zero =>
    intro nd0
    exact ⟨nd0, le_refl _, rfl⟩
  | succ fl ih =>
    intro nd0
    simp only [reprSearchAux]
    split_ifs with h
    · exact ⟨nd0, le_refl _, rfl⟩
    · obtain ⟨nd, hle, heq⟩ := ih (nd0 + 1)
      exact ⟨nd, by omega, heq⟩

/-- The shortest-repr rendering of a float of value at most 1 is at most 1. -/
theorem reprFloat_le_one (f : ℕ × ℤ) (h : floatVal f ≤ 1) :
    decVal (reprFloat f) ≤ 1 := by
  obtain ⟨nd, hnd, heq⟩ := reprSearchAux_cand f 16 1
  unfold reprFloat
  rw [heq]
  exact reprCand_le_one f nd hnd h

/-- The value of any decimal pair is nonnegative. -/
theorem decVal_nonneg (d : ℕ × ℤ) : 0 ≤ decVal d := by
  unfold decVal
  positivity

/-- `Decimal(str(a / b))` is nonnegative. -/
theorem ratioDec_nonneg (a b : ℕ) : 0 ≤ ratioDec a b := by
  unfold ratioDec
  split_ifs
  · norm_num
  · exact decVal_nonneg _

/-- `Decimal(str(a / b))` is at most 1 when `a ≤ b`. -/
theorem ratioDec_le_one (a b : ℕ) (hab : a ≤ b) : ratioDec a b ≤ 1 := by
  unfold ratioDec
  split_ifs with h
  · norm_num
  · exact reprFloat_le_one _ (floatOfRat_le_one a b (by omega) hab)

/-- Every experience bracket returned by the mapping is well ordered. -/
theorem experienceMapping_le (l : String) :
    (MatchingService.experienceMapping l).1 ≤ (MatchingService.experienceMapping l).2 := by
  unfold MatchingService.experienceMapping
  split_ifs <;> decide

/-- C1: the spec says `calculate_match_score` combines the four sub-scores
with weights 0.4/0.3/0.2/0.1 into a 0–100 total and persists it.  The code
cannot do so: each sub-score is a `Decimal` and each weight a `float`, and
Python raises `TypeError` on `Decimal * float`, so the call fails on every
input before anything is computed or stored (the repository's own
`test_calculate_match_score` would fail the same way). -/
theorem calculate_match_score_raises_type_error (job : JobPost) (a : ApplicantProfile) :
    MatchingService.calculate_match_score job a = Except.error PyErr.typeError := rfl

/-- C2 (amended): the experience sub-score is `1.0` inside the hard-coded
bracket (`entry`: 0–2, `mid`: 2–5, `senior`: 5–100); below the bracket it
is `max(0, 1 - d)` where `d` is `Decimal(str(diff * 0.2))`, the decimal
rendering of the floating-point product of the shortfall with `0.2` —
approximately, but not always exactly, `0.2` per missing year: for one
missing year `d = 0.2` exactly, while for three `d = 0.6000000000000001`,
so a senior-level job and two years of experience score
`0.3999999999999999`; above the bracket it is the flat constant `0.9`,
independent of the distance. -/
theorem calculate_experience_score_cases (job : JobPost) (a : ApplicantProfile) :
    (MatchingService.experienceMapping "entry" = (0, 2)
      ∧ MatchingService.experienceMapping "mid" = (2, 5)
      ∧ MatchingService.experienceMapping "senior" = (5, 100))
    ∧ ((MatchingService.experienceMapping job.experience_level).1 ≤ a.years_experience
        ∧ a.years_experience ≤ (MatchingService.experienceMapping job.experience_level).2 →
        MatchingService.calculate_experience_score job a = 1)
    ∧ (a.years_experience < (MatchingService.experienceMapping job.experience_level).1 →
        MatchingService.calculate_experience_score job a =
          max 0 (1 - timesPointTwoDec
            ((MatchingService.experienceMapping job.experience_level).1
              - a.years_experience).toNat))
    ∧ ((MatchingService.experienceMapping job.experience_level).2 < a.years_experience →
        MatchingService.calculate_experience_score job a = 0.9)
    ∧ timesPointTwoDec 1 = 1 / 5
    ∧ timesPointTwoDec 3 = 6000000000000001 / 10 ^ 16
    ∧ MatchingService.calculate_experience_score jobSeniorC2 (applicantExpC2 2)
        = 3999999999999999 / 10 ^ 16 := by
  have hp1 : timesPointTwoDec 1 = 1 / 5 := by
    have h : reprFloat (mulFloat (floatOfRat 1 1) (floatOfRat 1 5)) = (2, 1) := by
      decide
    unfold timesPointTwoDec
    rw [h]
    unfold decVal
    norm_num
  have hp3 : timesPointTwoDec 3 = 6000000000000001 / 10 ^ 16 := by
    have h : reprFloat (mulFloat (floatOfRat 3 1) (floatOfRat 1 5))
        = (6000000000000001, 16) := by
      decide
    unfold timesPointTwoDec
    rw [h]
    unfold decVal
    norm_num
  refine ⟨by decide, ?_, ?_, ?_, hp1, hp3, ?_⟩
  · intro h
    simp only [MatchingService.calculate_experience_score]
    rw [if_pos h]
    norm_num
  · intro h
    have hni : ¬ ((MatchingService.experienceMapping job.experience_level).1 ≤ a.years_experience
        ∧ a.years_experience ≤ (MatchingService.experienceMapping job.experience_level).2) := by
      rintro ⟨h1, -⟩
      exact absurd h (not_lt.mpr h1)
    simp only [MatchingService.calculate_experience_score]
    rw [if_neg hni, if_pos h]
    norm_num
  · intro h
    have hle := experienceMapping_le job.experience_level
    have hni : ¬ ((MatchingService.experienceMapping job.experience_level).1 ≤ a.years_experience
        ∧ a.years_experience ≤ (MatchingService.experienceMapping job.experience_level).2) := by
      rintro ⟨-, h2⟩
      exact absurd h (not_lt.mpr h2)
    have hnlt : ¬ a.years_experience < (MatchingService.experienceMapping job.experience_level).1 :=
      not_lt.mpr (le_trans hle (le_of_lt h))
    simp only [MatchingService.calculate_experience_score]
    rw [if_neg hni, if_neg hnlt]
  · have hmap : MatchingService.experienceMapping "senior" = (5, 100) := by decide
    simp only [MatchingService.calculate_experience_score, jobSeniorC2, applicantExpC2, hmap]
    rw [if_neg (by norm_num), if_pos (by norm_num)]
    have ht : ((5 : ℤ) - 2).toNat = 3 := by decide
    rw [ht, hp3]
    rw [show (0.0 : ℚ) = 0 by norm_num, max_eq_right (by norm_num)]
    norm_num

/-- Witness for C2's amended theorem: a mid-level job and three years of
experience sit inside the 2–5 bracket and score `1.0`. -/
theorem calculate_experience_score_cases_witness :
    MatchingService.calculate_experience_score jobMidC2 (applicantExpC2 3) = 1 :=
  (calculate_experience_score_cases jobMidC2 (applicantExpC2 3)).2.1 (by decide)

/-- C2 counterexample: for an entry-level job, applicants 1 year and 48
years above the bracket both score the flat `0.9`, so no positive rate can
make the above-bracket score a linear penalty proportional to the distance
from the bracket. -/
theorem calculate_experience_score_not_proportional :
    MatchingService.calculate_experience_score jobEntryC2 (applicantExpC2 3) = 0.9
    ∧ MatchingService.calculate_experience_score jobEntryC2 (applicantExpC2 50) = 0.9
    ∧ ¬ ∃ rate : ℚ, 0 < rate
        ∧ MatchingService.calculate_experience_score jobEntryC2 (applicantExpC2 3)
            = max 0 (1 - rate * 1)
        ∧ MatchingService.calculate_experience_score jobEntryC2 (applicantExpC2 50)
            = max 0 (1 - rate * 48) := by
  have h3 : MatchingService.calculate_experience_score jobEntryC2 (applicantExpC2 3) = 0.9 := rfl
  have h50 : MatchingService.calculate_experience_score jobEntryC2 (applicantExpC2 50) = 0.9 := rfl
  refine ⟨h3, h50, ?_⟩
  rintro ⟨rate, hpos, h1, h2⟩
  rw [h3] at h1
  rw [h50] at h2
  have hrate : rate = 0.1 := by
    rcases le_total (1 - rate * 1) 0 with hle | hge
    · rw [max_eq_left hle] at h1
      norm_num at h1
    · rw [max_eq_right hge] at h1
      linarith
  rw [hrate] at h2
  rw [max_eq_left (by norm_num : (1 : ℚ) - 0.1 * 48 ≤ 0)] at h2
  norm_num at h2

/-- C3 counterexample: with three required skills of which the applicant
holds one, the float quotient `1/3` renders as `0.3333333333333333`, so the
stored sub-score is not the exact overlap ratio `1/3`. -/
theorem calculate_skills_score_float_counterexample :
    (jobC3three.skills_required ∩ applicantC3.skills).card = 1
    ∧ jobC3three.skills_required.card = 3
    ∧ MatchingService.calculate_skills_score jobC3three applicantC3
        = 3333333333333333 / 10 ^ 16
    ∧ (3333333333333333 / 10 ^ 16 : ℚ) ≠ 1 / 3 := by
  refine ⟨by decide, by decide, ?_, by norm_num⟩
  have hpair : reprFloat (floatOfRat 1 3) = (3333333333333333, 16) := by decide
  have hval : MatchingService.calculate_skills_score jobC3three applicantC3
      = ratioDec 1 3 := by
    unfold MatchingService.calculate_skills_score
    rw [if_neg (by decide), if_neg (by decide)]
    rw [show (jobC3three.skills_required ∩ applicantC3.skills).card = 1 by decide,
      show jobC3three.skills_required.card = 3 by decide]
  rw [hval]
  unfold ratioDec
  rw [if_neg (by norm_num), hpair]
  unfold decVal
  norm_num

/-- C3 (amended): with a non-empty required-skill set the skills sub-score
is `Decimal(str(.))` of the float overlap quotient — the shortest decimal
rendering of the binary64 double nearest `|required ∩ applicant| /
|required|` — always a value in [0, 1], and equal to the exact ratio
exactly when that decimal is (as at the repository test's fixture, where 1
of 2 skills gives exactly 0.5). -/
theorem calculate_skills_score_ratio (job : JobPost) (a : ApplicantProfile)
    (h : job.skills_required ≠ ∅) :
    MatchingService.calculate_skills_score job a =
      ratioDec ((job.skills_required ∩ a.skills).card) (job.skills_required.card)
    ∧ 0 ≤ MatchingService.calculate_skills_score job a
    ∧ MatchingService.calculate_skills_score job a ≤ 1
    ∧ ratioDec 1 2 = 1 / 2 := by
  have hhalf : ratioDec 1 2 = 1 / 2 := by
    have hpair : reprFloat (floatOfRat 1 2) = (5, 1) := by decide
    unfold ratioDec
    rw [if_neg (by norm_num), hpair]
    unfold decVal
    norm_num
  have heq : MatchingService.calculate_skills_score job a =
      ratioDec ((job.skills_required ∩ a.skills).card) (job.skills_required.card) := by
    unfold MatchingService.calculate_skills_score
    rw [if_neg h]
    by_cases ha : a.skills = ∅
    · rw [if_pos ha, ha, Finset.inter_empty]
      simp [ratioDec]
      norm_num
    · rw [if_neg ha]
  refine ⟨heq, ?_, ?_, hhalf⟩
  · rw [heq]
    exact ratioDec_nonneg _ _
  · rw [heq]
    exact ratioDec_le_one _ _ (Finset.card_le_card Finset.inter_subset_left)

/-- Witness for C3's amended theorem at the repository test's fixture: two
required skills, one held. -/
theorem calculate_skills_score_ratio_witness :
    MatchingService.calculate_skills_score jobC3 applicantC3 =
      ratioDec ((jobC3.skills_required ∩ applicantC3.skills).card)
        (jobC3.skills_required.card)
    ∧ 0 ≤ MatchingService.calculate_skills_score jobC3 applicantC3
    ∧ MatchingService.calculate_skills_score jobC3 applicantC3 ≤ 1
    ∧ ratioDec 1 2 = 1 / 2 :=
  calculate_skills_score_ratio jobC3 applicantC3 (by decide)

/-- C4 (amended): when both location strings are non-empty the location
sub-score is `1.0` exactly when one lower-cased location (Python's
`str.lower()`, which also lowercases accented Latin-1 letters such as
`Á ↦ á`; the embedding models it for code points below `0x100`, whence the
two hypotheses) is a substring of the other and `0.3` otherwise; when
either location is empty the code short-circuits to the neutral `0.5`
instead. -/
theorem calculate_location_score_cases (job : JobPost) (a : ApplicantProfile) :
    (job.location = [] ∨ a.location = [] →
      MatchingService.calculate_location_score job a = 0.5)
    ∧ (job.location ≠ [] → a.location ≠ [] →
        (∀ c ∈ job.location, c.toNat < 256) → (∀ c ∈ a.location, c.toNat < 256) →
        (MatchingService.calculate_location_score job a = 1 ↔
          (MatchingService.occursIn (MatchingService.lowerChars job.location)
              (MatchingService.lowerChars a.location)
            || MatchingService.occursIn (MatchingService.lowerChars a.location)
              (MatchingService.lowerChars job.location)) = true)
        ∧ ((MatchingService.occursIn (MatchingService.lowerChars job.location)
              (MatchingService.lowerChars a.location)
            || MatchingService.occursIn (MatchingService.lowerChars a.location)
              (MatchingService.lowerChars job.location)) = false →
            MatchingService.calculate_location_score job a = 0.3)) := by
  constructor
  · intro h
    simp only [MatchingService.calculate_location_score]
    rw [if_pos h]
  · intro hj ha _ _
    have hne : ¬ (job.location = [] ∨ a.location = []) := by
      rintro (h | h)
      · exact hj h
      · exact ha h
    by_cases hc : (MatchingService.occursIn (MatchingService.lowerChars job.location)
          (MatchingService.lowerChars a.location)
        || MatchingService.occursIn (MatchingService.lowerChars a.location)
          (MatchingService.lowerChars job.location)) = true
    · have hs : MatchingService.calculate_location_score job a = 1 := by
        simp only [MatchingService.calculate_location_score]
        rw [if_neg hne, if_pos hc]
        norm_num
      refine ⟨⟨fun _ => hc, fun _ => hs⟩, fun hf => ?_⟩
      rw [hf] at hc
      cases hc
    · have hs : MatchingService.calculate_location_score job a = 0.3 := by
        simp only [MatchingService.calculate_location_score]
        rw [if_neg hne, if_neg hc]
      refine ⟨⟨fun h1 => ?_, fun hct => absurd hct hc⟩, fun _ => hs⟩
      have : (0.3 : ℚ) = 1 := hs.symm.trans h1
      norm_num at this

/-- Witness for C4's amended theorem: `"BOGOTÁ"` lower-cases to `"bogotá"`
(including the accented `Á`), which is a substring of the applicant's
`"bogotá"`, so the two non-empty locations score `1.0`. -/
theorem calculate_location_score_cases_witness :
    MatchingService.calculate_location_score jobC4accent applicantC4accent = 1 :=
  (((calculate_location_score_cases jobC4accent applicantC4accent).2
      (by decide) (by decide) (by decide) (by decide)).1).mpr (by decide)

/-- C4 counterexample: the empty job location is a substring of `"bogota"`,
so the claim as stated demands a score of `1.0`, but the code returns the
neutral `0.5` whenever a location is empty. -/
theorem calculate_location_score_empty_counterexample :
    MatchingService.occursIn (MatchingService.lowerChars jobC4empty.location)
      (MatchingService.lowerChars applicantC4.location) = true
    ∧ MatchingService.calculate_location_score jobC4empty applicantC4 = 0.5
    ∧ (0.5 : ℚ) ≠ 1 := by
  refine ⟨by decide, rfl, by norm_num⟩

/-- C5: under the `unique_together ['job_post', 'applicant']` constraint a
second application with the same pair raises a uniqueness error and leaves
the stored rows exactly as they were. -/
theorem create_application_unique_together (store store2 : List ApplicationRow)
    (row row2 : ApplicationRow)
    (hjob : row2.job_post = row.job_post) (happ : row2.applicant = row.applicant)
    (hfirst : create_application store row = (none, store2)) :
    create_application store2 row2 = (some DbError.uniqueViolation, store2) := by
  unfold create_application at hfirst ⊢
  by_cases hc : store.any
      (fun r => r.job_post == row.job_post && r.applicant == row.applicant) = true
  · rw [if_pos hc] at hfirst
    simp at hfirst
  · rw [if_neg hc] at hfirst
    have hstore : store2 = row :: store := by
      have := congrArg Prod.snd hfirst
      simpa using this.symm
    subst hstore
    rw [if_pos]
    simp only [List.any_cons, Bool.or_eq_true, Bool.and_eq_true, beq_iff_eq]
    exact Or.inl ⟨hjob.symm, happ.symm⟩

/-- Witness for C5: inserting the same application row twice fails on the
second insert and keeps the single stored row. -/
theorem create_application_unique_together_witness :
    create_application [applicationC5] applicationC5 =
      (some DbError.uniqueViolation, [applicationC5]) :=
  create_application_unique_together [] [applicationC5] applicationC5 applicationC5
    rfl rfl (by decide)

/-- C8: `get_queryset` returns `[]` on any exception from the service call
and returns a successful result unchanged; the call the repository actually
makes names a method `MatchingService` does not define, so it raises
`AttributeError` and the view yields `[]`. -/
theorem get_queryset_error_handling :
    (∀ e : ServiceErr, ApplicantRecommendationsView.get_queryset (Except.error e) = [])
    ∧ (∀ ms : List MatchScoreRow,
        ApplicantRecommendationsView.get_queryset (Except.ok ms) = ms)
    ∧ ApplicantRecommendationsView.get_queryset
        ApplicantRecommendationsView.get_job_recommendations = [] :=
  ⟨fun _ => rfl, fun _ => rfl, rfl⟩

/-- C9: every row that went through `MatchScore.save` has
`is_high_match = (total_score ≥ 80)` and `is_recommended =
(total_score ≥ 70)`, so no sequence of saves can store a row violating the
equivalences. -/
theorem match_score_save_flags (rows : List MatchScoreRow) (r : MatchScoreRow)
    (hr : r ∈ rows.map MatchScoreRow.save) :
    r.is_high_match = decide (80 ≤ r.total_score)
    ∧ r.is_recommended = decide (70 ≤ r.total_score) := by
  obtain ⟨s, -, rfl⟩ := List.mem_map.mp hr
  exact ⟨rfl, rfl⟩

/-- Witness for C9: saving a row with `total_score = 85` and stale flags
yields flags agreeing with the thresholds. -/
theorem match_score_save_flags_witness :
    (MatchScoreRow.save matchRowC9).is_high_match =
      decide (80 ≤ (MatchScoreRow.save matchRowC9).total_score)
    ∧ (MatchScoreRow.save matchRowC9).is_recommended =
      decide (70 ≤ (MatchScoreRow.save matchRowC9).total_score) :=
  match_score_save_flags [matchRowC9] (MatchScoreRow.save matchRowC9) (by simp)

/-- C10: `MatchingPreferences.save` runs `clean` first, so it succeeds
exactly when the five weights sum to 100; otherwise it raises a
`ValidationError` carrying the sum and the stored row stays as it was; and
the declared defaults 40/30/20/10/0 satisfy the constraint. -/
theorem matching_preferences_weight_sum (p : MatchingPreferences)
    (stored : Option MatchingPreferences) :
    ((p.savePrefs stored).1 = none ↔ p.total_weight = 100)
    ∧ (p.total_weight = 100 → p.savePrefs stored = (none, some p))
    ∧ (p.total_weight ≠ 100 →
        p.savePrefs stored = (some (PrefError.validationError p.total_weight), stored))
    ∧ defaultMatchingPreferences.total_weight = 100 := by
  unfold MatchingPreferences.savePrefs MatchingPreferences.clean
  by_cases h : p.total_weight = 100
  · rw [if_neg (not_not_intro h)]
    exact ⟨by simp [h], fun _ => rfl, fun hn => absurd h hn, by decide⟩
  · rw [if_pos h]
    exact ⟨by simp [h], fun hc => absurd hc h, fun _ => rfl, by decide⟩

/-- Witness for C10: weights summing to 110 are rejected and the stored
defaults survive the failed save. -/
theorem matching_preferences_weight_sum_witness :
    MatchingPreferences.savePrefs badPrefsC10 (some defaultMatchingPreferences) =
      (some (PrefError.validationError badPrefsC10.total_weight),
        some defaultMatchingPreferences) :=
  (matching_preferences_weight_sum badPrefsC10 (some defaultMatchingPreferences)).2.2.1
    (by decide)

/-- The decimal digit characters are distinct. -/
theorem digitChar_inj : ∀ d₁ : ℕ, d₁ < 10 → ∀ d₂ : ℕ, d₂ < 10 →
    Char.ofNat (48 + d₁) = Char.ofNat (48 + d₂) → d₁ = d₂ := by
  decide

/-- Mapping digit lists to character lists is injective on lists of digits
below 10. -/
theorem map_digitChar_inj : ∀ l₁ l₂ : List ℕ,
    (∀ d ∈ l₁, d < 10) → (∀ d ∈ l₂, d < 10) →
    l₁.map (fun d => Char.ofNat (48 + d)) = l₂.map (fun d => Char.ofNat (48 + d)) →
    l₁ = l₂ := by
  intro l₁
  induction l₁ with
  | nil =>
    intro l₂ _ _ h
    cases l₂ with
    | nil => rfl
    | cons b bs => simp at h
  | cons a as ih =>
    intro l₂ h₁ h₂ h
    cases l₂ with
    | nil => simp at h
    | cons b bs =>
      simp only [List.map_cons, List.cons.injEq] at h
      have ha : a = b :=
        digitChar_inj a (h₁ a (by simp)) b (h₂ b (by simp)) h.1
      have hrest : as = bs :=
        ih bs (fun d hd => h₁ d (by simp [hd])) (fun d hd => h₂ d (by simp [hd])) h.2
      rw [ha, hrest]

/-- The decimal rendering of a counter is injective. -/
theorem natChars_inj : ∀ m n : ℕ, natChars m = natChars n → m = n := by
  intro m n h
  unfold natChars at h
  have h₁ : ∀ d ∈ (Nat.digits 10 m).reverse, d < 10 := fun d hd =>
    Nat.digits_lt_base (by norm_num) (List.mem_reverse.mp hd)
  have h₂ : ∀ d ∈ (Nat.digits 10 n).reverse, d < 10 := fun d hd =>
    Nat.digits_lt_base (by norm_num) (List.mem_reverse.mp hd)
  have hdig : Nat.digits 10 m = Nat.digits 10 n := by
    have := congrArg List.reverse (map_digitChar_inj _ _ h₁ h₂ h)
    simpa using this
  calc m = Nat.ofDigits 10 (Nat.digits 10 m) := (Nat.ofDigits_digits 10 m).symm
  _ = Nat.ofDigits 10 (Nat.digits 10 n) := by rw [hdig]
  _ = n := Nat.ofDigits_digits 10 n

/-- Distinct loop indices produce distinct candidate usernames. -/
theorem candAt_inj (base : List Char) :
    ∀ i j : ℕ, candAt base i = candAt base j → i = j := by
  intro i j h
  match i, j with
  | 0, 0 => rfl
  | 0, k + 1 =>
    exfalso
    unfold candAt at h
    have := congrArg List.length h
    simp [List.length_append] at this
  | k + 1, 0 =>
    exfalso
    unfold candAt at h
    have := congrArg List.length h
    simp [List.length_append] at this
  | k + 1, l + 1 =>
    unfold candAt at h
    have htail := List.append_cancel_left h
    injection htail with _ hchars
    exact natChars_inj _ _ hchars

/-- Pigeonhole: among the first `|taken| + 1` candidates one is not taken. -/
theorem exists_free_index (taken : List (List Char)) (base : List Char) :
    ∃ m, m ≤ taken.length ∧ candAt base m ∉ taken := by
  by_contra hcon
  push_neg at hcon
  have hsub : (Finset.range (taken.length + 1)).image (candAt base) ⊆ taken.toFinset := by
    intro u hu
    simp only [Finset.mem_image, Finset.mem_range] at hu
    obtain ⟨m, hm, rfl⟩ := hu
    exact List.mem_toFinset.mpr (hcon m (Nat.lt_succ_iff.mp hm))
  have hcard : taken.length + 1 ≤ taken.toFinset.card := by
    calc taken.length + 1 = (Finset.range (taken.length + 1)).card :=
        (Finset.card_range _).symm
    _ = ((Finset.range (taken.length + 1)).image (candAt base)).card :=
        (Finset.card_image_of_injective _ fun i j => candAt_inj base i j).symm
    _ ≤ taken.toFinset.card := Finset.card_le_card hsub
  have := List.toFinset_card_le taken
  omega

/-- Whatever `searchFree` returns is not among the taken usernames. -/
theorem searchFree_not_mem (taken : List (List Char)) (base : List Char) :
    ∀ fuel m u, searchFree taken base fuel m = some u → u ∉ taken := by
  intro fuel
  induction fuel with
  | zero =>
    intro m u h
    simp [searchFree] at h
  | succ f ih =>
    intro m u h
    unfold searchFree at h
    split at h
    · exact ih (m + 1) u h
    · rename_i hni
      injection h with h
      rw [← h]
      exact hni

/-- `searchFree` succeeds when some candidate within the fuel is free. -/
theorem searchFree_succeeds (taken : List (List Char)) (base : List Char) :
    ∀ fuel m, (∃ j, j < fuel ∧ candAt base (m + j) ∉ taken) →
      ∃ u, searchFree taken base fuel m = some u := by
  intro fuel
  induction fuel with
  | zero =>
    rintro m ⟨j, hj, -⟩
    omega
  | succ f ih =>
    rintro m ⟨j, hj, hfree⟩
    unfold searchFree
    by_cases hmem : candAt base m ∈ taken
    · rw [if_pos hmem]
      apply ih (m + 1)
      cases j with
      | zero =>
        exact absurd hmem (by simpa using hfree)
      | succ j2 =>
        refine ⟨j2, by omega, ?_⟩
        have harith : m + 1 + j2 = m + (j2 + 1) := by omega
        rw [harith]
        exact hfree
    · rw [if_neg hmem]
      exact ⟨_, rfl⟩

/-- C6: the saved username is derived from the email's local part with
numeric suffixes tried in increasing order, and the generation always
terminates with a username different from every existing one. -/
theorem generate_username_fresh (taken : List (List Char)) (email : List Char) :
    ∃ u, generate_username taken email = some u ∧ u ∉ taken := by
  obtain ⟨m, hm, hfree⟩ := exists_free_index taken (splitLocal email)
  obtain ⟨u, hu⟩ := searchFree_succeeds taken (splitLocal email) (taken.length + 1) 0
    ⟨m, by omega, by simpa using hfree⟩
  exact ⟨u, hu, searchFree_not_mem taken (splitLocal email) _ _ _ hu⟩

/-- C7: the `post_save` dispatch for a newly created user leaves a base
`Profile` in place (created with empty phone and location when absent), and
an `ApplicantProfile` or `Company` for the corresponding user types. -/
theorem post_save_creates_related_profiles (u : UserRec) (s : AccountsState) :
    (Signals.postSaveCreated u s).profile.isSome = true
    ∧ (s.profile = none →
        (Signals.postSaveCreated u s).profile = some ⟨"", ""⟩)
    ∧ (u.user_type = "applicant" →
        (Signals.postSaveCreated u s).applicant_profile.isSome = true)
    ∧ (u.user_type = "company" →
        (Signals.postSaveCreated u s).company.isSome = true) := by
  obtain ⟨p, ap, c⟩ := s
  cases p <;> cases ap <;> cases c <;>
    simp only [Signals.postSaveCreated, Signals.save_user_profile,
      Signals.create_user_profile, Signals.create_user_related_profiles,
      Signals.create_specific_profile, Signals.ensureProfile] <;>
    split_ifs <;> simp_all

/-- Witness for C7: creating an applicant user with no related rows yields
both the empty base profile and an applicant profile. -/
theorem post_save_creates_related_profiles_witness :
    (Signals.postSaveCreated userC7 emptyAccountsState).profile = some ⟨"", ""⟩
    ∧ (Signals.postSaveCreated userC7 emptyAccountsState).applicant_profile.isSome = true :=
  ⟨(post_save_creates_related_profiles userC7 emptyAccountsState).2.1 rfl,
   (post_save_creates_related_profiles userC7 emptyAccountsState).2.2.1 rfl⟩

end Meraki
